import Mathlib

/-!
Shallow embedding of the crypto-council rating plugin
(`src/plugins/council.ts`, class `CouncilPlugin`, together with the
`CouncilManager` variant in the second source file).  JavaScript
`Math.random()` draws are modelled as explicit rational parameters in
`[0, 1)`; the in-memory `Map<string, Council>` registry and the plain
`Record<string, _>` objects are modelled as insertion-ordered association
lists with JavaScript `Map.set` semantics (update the existing key in
place, otherwise append).
-/

namespace SaturdayAI

/-- `interface CouncilMember` of the source. -/
structure CouncilMember where
  name : String
  expertise : String
  catchphrase : String
  deriving DecidableEq

/-- `type RiskLevel = 'low' | 'medium' | 'high'`. -/
inductive RiskLevel where
  | low
  | medium
  | high
  deriving DecidableEq

/-- `type CouncilStatus = 'pending' | 'active' | 'complete'`. -/
inductive CouncilStatus where
  | pending
  | active
  | complete
  deriving DecidableEq

/-- `interface TokenData` of the source (numbers modelled as rationals). -/
structure TokenData where
  price : ℚ
  volume24h : ℚ
  marketCap : ℚ
  priceChange24h : ℚ
  holders : ℤ
  liquidityUSD : ℚ
  deriving DecidableEq

/-- The per-stage `details` payload of `interface AnalysisStage`: exactly one
of the stage-specific shapes, or empty (a fresh stage, or the sentinel result
for an unknown stage name). -/
inductive StageDetails where
  | empty
  | onChain (github transactions : String)
  | social (twitter telegram : String)
  | market (firstMover : Bool) (competitors : List String) (team : String)
  | design (website artStyle : String)
  | valueProp (innovation useCase : String)
  deriving DecidableEq

/-- `interface AnalysisStage` of the source. -/
structure AnalysisStage where
  name : String
  completed : Bool
  score : ℤ
  analysis : String
  details : StageDetails
  deriving DecidableEq

/-- `interface CouncilRating` of the source (`comment` is always set by the
code that builds a rating, so it is a plain `String` here). -/
structure CouncilRating where
  memberName : String
  score : ℤ
  comment : String
  deriving DecidableEq

/-- `interface Council` of the source. -/
structure Council where
  id : String
  members : List CouncilMember
  status : CouncilStatus
  ratings : List (String × CouncilRating)
  crypto : String
  analysis : String
  currentStage : ℕ
  stages : List AnalysisStage
  riskLevel : RiskLevel
  tokenData : Option TokenData
  memberAnalyses : List (String × String)
  technicalScore : ℤ
  fundamentalScore : ℤ
  memePotential : ℤ
  deriving DecidableEq

/-- JavaScript `Map.set` / `obj[k] = v` semantics on an insertion-ordered
association list: the first entry with key `k` is replaced in place,
otherwise the new entry is appended at the end. -/
def recSet {α : Type} : List (String × α) → String → α → List (String × α)
  | [], k, v => [(k, v)]
  | p :: t, k, v => if p.1 = k then (k, v) :: t else p :: recSet t k v

/-- JavaScript `Map.get` / `obj[k]` lookup. -/
def recGet {α : Type} : List (String × α) → String → Option α
  | [], _ => none
  | p :: t, k => if p.1 = k then some p.2 else recGet t k

/-- JavaScript `Object.values` / `Map.values()` in insertion order. -/
def recValues {α : Type} (m : List (String × α)) : List α :=
  m.map Prod.snd

/-- The registry `private councils: Map<string, Council>`. -/
abbrev CouncilStore : Type := List (String × Council)

/-- The static five-member roster `councilMembers` of the source. -/
def councilMembers : List CouncilMember :=
  [⟨"CryptoSage", "Technical Analysis",
      "The charts never lie, but sometimes they do a little trolling"⟩,
   ⟨"TokenWhisperer", "Tokenomics",
      "If the tokenomics are mid, you gonna stay poor kid"⟩,
   ⟨"BlockchainOracle", "On-Chain Analysis",
      "The blockchain sees all, especially your poor life choices"⟩,
   ⟨"DeFiGuru", "DeFi Mechanics",
      "Touch grass? I only touch smart contracts"⟩,
   ⟨"ChartMaster", "Market Psychology",
      "When there's blood in the streets... buy more crypto"⟩]

/-- The five canonical stages built inside `suggestCouncil`, in source
order, each `completed: false, score: 0, analysis: "", details: {}`. -/
def initialStages : List AnalysisStage :=
  [⟨"On-chain Analysis", false, 0, "", StageDetails.empty⟩,
   ⟨"Social Sentiment", false, 0, "", StageDetails.empty⟩,
   ⟨"Market Insights", false, 0, "", StageDetails.empty⟩,
   ⟨"Design and Art", false, 0, "", StageDetails.empty⟩,
   ⟨"Value Proposition", false, 0, "", StageDetails.empty⟩]

/-- `Math.floor(Math.random() * 10) + 1`, the per-member quick-rating score
drawn inside `collectRatings`, with `r` the `Math.random()` draw. -/
def quickRatingScore (r : ℚ) : ℤ :=
  Int.floor (r * 10) + 1

/-- `Math.floor(Math.random() * 100)`, the draw used for each of
`technicalScore`, `fundamentalScore` and `memePotential`. -/
def axisScore (r : ℚ) : ℤ :=
  Int.floor (r * 100)

/-- `Math.floor(Math.random() * 40) + 60`, the per-member score drawn inside
`getMemberAnalyses` (the 60-100 member-analysis rating phase). -/
def memberAnalysisScore (r : ℚ) : ℤ :=
  Int.floor (r * 40) + 60

/-- `generateMemberComment` of the source: the static comment table keyed by
member name, with the generic fallback. -/
def generateMemberComment (m : CouncilMember) : String :=
  if m.name = "CryptoSage" then "Charts looking absolutely based!"
  else if m.name = "TokenWhisperer" then "Tokenomics check out, ser"
  else if m.name = "BlockchainOracle" then "On-chain metrics bullish af"
  else if m.name = "DeFiGuru" then "Smart contracts looking clean"
  else if m.name = "ChartMaster" then "Market structure is valid"
  else "Looking bullish!"

/-- `suggestCouncil(crypto, tokenData)` of the source.  The two
`Math.random()` effects are explicit parameters: `id` is the generated
identifier (`Math.random().toString(36).substring(7)`), and `shuffled` is
the result of `[...this.councilMembers].sort(() => 0.5 - Math.random())`, a
reordering of the roster from which the first 3 are taken.  Returns the new
council together with the updated registry (`this.councils.set(id, council)`). -/
def suggestCouncil (st : CouncilStore) (crypto : String) (id : String)
    (shuffled : List CouncilMember) (tokenData : Option TokenData) :
    Council × CouncilStore :=
  let members := shuffled.take 3
  let council : Council :=
    { id := id
      members := members
      status := CouncilStatus.pending
      ratings := []
      crypto := crypto
      analysis := ""
      currentStage := 0
      stages := initialStages
      riskLevel := RiskLevel.medium
      tokenData := tokenData
      memberAnalyses := []
      technicalScore := 0
      fundamentalScore := 0
      memePotential := 0 }
  (council, recSet st id council)

/-- `getCouncil(id)` of the source: `this.councils.get(id)`. -/
def getCouncil (st : CouncilStore) (id : String) : Option Council :=
  recGet st id

/-- `confirmCouncil(id)` of the source: transitions a `pending` council to
`active` and returns `true`; otherwise returns `false` and leaves the
registry untouched. -/
def confirmCouncil (st : CouncilStore) (id : String) : Bool × CouncilStore :=
  match recGet st id with
  | none => (false, st)
  | some c =>
      if c.status = CouncilStatus.pending then
        (true, recSet st id { c with status := CouncilStatus.active })
      else (false, st)

/-- The ratings map after `collectRatings`'s
`council.members.forEach(member => { council.ratings[member.name] = ... })`,
with `mr i` the `Math.random()` draw for the `i`-th member. -/
def updatedRatings (c : Council) (mr : ℕ → ℚ) : List (String × CouncilRating) :=
  (c.members.enum).foldl
    (fun acc p =>
      recSet acc p.2.name
        ⟨p.2.name, quickRatingScore (mr p.1), generateMemberComment p.2⟩)
    c.ratings

/-- `collectRatings`'s
`avgRating = Object.values(council.ratings).reduce((a, b) => a + b.score, 0) / council.members.length`,
evaluated on the ratings map as it stands after the per-member updates. -/
def avgRating (c : Council) (mr : ℕ → ℚ) : ℚ :=
  ((recValues (updatedRatings c mr)).map (fun r => (r.score : ℚ))).sum /
    (c.members.length : ℚ)

/-- The `bullish` narrative template of `collectRatings`. -/
def bullishAnalysis (crypto : String) : String :=
  crypto ++ " is looking absolutely based! Technical analysis is screaming moon mission, fundamentals are thicc, and the meme potential is off the charts! NFA but your grandkids will thank you for this one fam! 🚀"

/-- The `neutral` narrative template of `collectRatings`. -/
def neutralAnalysis (crypto : String) : String :=
  crypto ++ " giving mixed signals rn. The charts are crabbing harder than your ex's attitude. Might need to zoom out and DYOR. Keep some dry powder ready anon."

/-- The `bearish` narrative template of `collectRatings`. -/
def bearishAnalysis (crypto : String) : String :=
  crypto ++ " looking more sus than a 4am discord pump. Charts giving major bearish vibes, tokenomics looking shakier than a paper-handed trader. Might want to touch grass before aping in."

/-- `riskLevel.toUpperCase()` as used in the `collectRatings` report. -/
def riskLevelUpper : RiskLevel → String
  | RiskLevel.low => "LOW"
  | RiskLevel.medium => "MEDIUM"
  | RiskLevel.high => "HIGH"

/-- `Number.prototype.toFixed(1)` for the nonnegative averages this program
formats: round to one decimal place, half away from zero. -/
def toFixed1 (q : ℚ) : String :=
  let n : ℤ := Int.floor (q * 10 + 1 / 2)
  toString (n / 10) ++ "." ++ toString (n % 10)

/-- `collectRatings(id)` of the source.  `mr i` is the `Math.random()` draw
for the `i`-th member's quick rating; `rt`, `rf`, `rm` are the draws for
`technicalScore`, `fundamentalScore` and `memePotential`.  The sentiment
selection (`avgRating >= 7 ? 'bullish' : avgRating >= 4 ? 'neutral' :
'bearish'`) and the `analyses[sentiment]` object lookup are folded into one
conditional choosing among the three narrative templates.  The source also
computes a per-member `ratings` display constant that the returned string
never uses; it is omitted here. -/
def collectRatings (st : CouncilStore) (id : String) (mr : ℕ → ℚ)
    (rt rf rm : ℚ) : String × CouncilStore :=
  match recGet st id with
  | none => ("Council not found or not active", st)
  | some c =>
      if c.status = CouncilStatus.active then
        let ratings := updatedRatings c mr
        let avg := avgRating c mr
        let c' : Council :=
          { c with
            ratings := ratings
            technicalScore := axisScore rt
            fundamentalScore := axisScore rf
            memePotential := axisScore rm
            riskLevel :=
              if avg > 7 then RiskLevel.low
              else if avg > 4 then RiskLevel.medium
              else RiskLevel.high
            analysis :=
              if avg ≥ 7 then bullishAnalysis c.crypto
              else if avg ≥ 4 then neutralAnalysis c.crypto
              else bearishAnalysis c.crypto
            status := CouncilStatus.complete }
        ("🎯 $" ++ c'.crypto ++ " Rating: " ++ toFixed1 avg ++
            "/10\n\n📊 Tech: " ++ toString c'.technicalScore ++
            "/100 | Fund: " ++ toString c'.fundamentalScore ++
            "/100 | Meme: " ++ toString c'.memePotential ++
            "/100\n\nRisk: " ++ riskLevelUpper c'.riskLevel ++ "\n\n" ++
            c'.analysis,
          recSet st id c')
      else ("Council not found or not active", st)

/-- The result record of `analyzeStage` of the source. -/
structure StageResult where
  analysis : String
  score : ℤ
  details : StageDetails
  deriving DecidableEq

/-- `analyzeStage` of the source restricted to own-key lookup on the
`analyses` table: the stage-name-keyed table of analyses, with `r` the
`Math.random()` draw of the selected entry, and the `{analysis: "Analysis
unavailable", score: 0, details: {}}` fallback of the `||`.  The final
`else` here is only faithful for names that also miss `Object.prototype`;
the full JavaScript property-lookup semantics of
`analyses[stage.name]?.() || sentinel`, prototype chain included, is
`analyzeStageJs` below.  Inside the program this function is only ever
applied to the five canonical names stored in `council.stages`, where the
two agree. -/
def analyzeStage (stageName : String) (r : ℚ) : StageResult :=
  if stageName = "On-chain Analysis" then
    ⟨"On-chain metrics looking bullish af! Github activity poppin, TX volume thicc 🔥",
      Int.floor ((60 : ℚ) + r * 40),
      StageDetails.onChain "Active development, 120+ contributors"
        "High daily volume, healthy distribution"⟩
  else if stageName = "Social Sentiment" then
    ⟨"Social metrics bussin fr fr! Twitter trending, TG community based 🚀",
      Int.floor ((50 : ℚ) + r * 50),
      StageDetails.social "Growing engagement" "Active community"⟩
  else if stageName = "Market Insights" then
    ⟨"Market position: absolute chad energy! Team doxxed & based, competition ngmi 💪",
      Int.floor ((40 : ℚ) + r * 60),
      StageDetails.market true ["comp1", "comp2"] "Doxxed and based"⟩
  else if stageName = "Design and Art" then
    ⟨"Design aesthetic: chef's kiss! Website clean af, branding on point 🎨",
      Int.floor ((70 : ℚ) + r * 30),
      StageDetails.design "Clean UI/UX" "Premium quality"⟩
  else if stageName = "Value Proposition" then
    ⟨"Utility check: solving real problems! Innovation level: galaxy brain 🧠",
      Int.floor ((55 : ℚ) + r * 45),
      StageDetails.valueProp "Revolutionary tech" "Strong utility"⟩
  else ⟨"Analysis unavailable", 0, StageDetails.empty⟩

/-- The five own keys of the `analyses` table in `analyzeStage`, in source
order. -/
def declaredStageNames : List String :=
  ["On-chain Analysis", "Social Sentiment", "Market Insights",
   "Design and Art", "Value Proposition"]

/-- Property names that `analyses[stage.name]` finds on `Object.prototype`
(the table is a plain object literal) and whose no-argument call returns a
truthy value, so the `||` sentinel is bypassed: `constructor` returns a
fresh object, `toString` and `toLocaleString` return the string
"[object Object]", and `valueOf` returns the table object itself. -/
def protoTruthyCallNames : List String :=
  ["constructor", "toString", "toLocaleString", "valueOf"]

/-- Property names on which `analyses[stage.name]?.()` throws a TypeError:
the `__proto__` accessor yields the non-callable `Object.prototype` itself,
and `__defineGetter__` / `__defineSetter__` called with no arguments reject
their undefined getter/setter argument.  (The remaining inherited methods -
`hasOwnProperty`, `isPrototypeOf`, `propertyIsEnumerable`,
`__lookupGetter__`, `__lookupSetter__` - return a falsy value from a
no-argument call, so for them the `||` does produce the sentinel.) -/
def protoThrowingNames : List String :=
  ["__proto__", "__defineGetter__", "__defineSetter__"]

/-- Outcome of `analyses[stage.name]?.() || sentinel` (the return of
`analyzeStage`) under full JavaScript semantics: a stage-result value (an
own key of the table, or the `||` sentinel when the lookup or the call
produced nothing truthy), some other truthy value inherited from
`Object.prototype` that bypasses the `||`, or a thrown TypeError. -/
inductive StageLookup where
  | result (res : StageResult)
  | inheritedValue
  | typeError
  deriving DecidableEq

/-- `analyzeStage` of the source under full JavaScript property-lookup
semantics: `analyses` is a plain object literal whose own keys are the five
declared stage names, so any other `stage.name` is looked up on
`Object.prototype`.  Four inherited names produce a truthy non-sentinel
value, three make `?.()` throw, and every remaining name (no property
found, or an inherited method whose call returns a falsy value) yields the
`||` sentinel. -/
def analyzeStageJs (stageName : String) (r : ℚ) : StageLookup :=
  if stageName ∈ declaredStageNames then
    StageLookup.result (analyzeStage stageName r)
  else if stageName ∈ protoTruthyCallNames then
    StageLookup.inheritedValue
  else if stageName ∈ protoThrowingNames then
    StageLookup.typeError
  else
    StageLookup.result ⟨"Analysis unavailable", 0, StageDetails.empty⟩

/-- `generateSentiment(score)` of the source. -/
def generateSentiment (score : ℚ) : String :=
  if score > 75 then "WAGMI! This one's definitely gonna make it! 🚀🌕"
  else if score > 50 then "Not bad anon, DYOR but could be based! 👀"
  else "Major red flags fam, probably ngmi 💀"

/-- `generateFinalAnalysis(council)` of the source, as the summary string it
returns.  Its `council.status = 'complete'` write is performed by the caller
model (`progressStage` sets the same value just before calling it).  The
local `riskLevel` constant of the source is computed and never used; it is
kept here under the same name. -/
def generateFinalAnalysis (c : Council) : String :=
  let avgScore : ℚ :=
    ((c.stages.map (fun s => (s.score : ℚ))).sum) / (c.stages.length : ℚ)
  let riskLevel :=
    if avgScore > 75 then RiskLevel.low
    else if avgScore > 50 then RiskLevel.medium
    else RiskLevel.high
  let _ := riskLevel
  let memberRatings :=
    String.intercalate "\n"
      (c.members.map (fun m =>
        m.name ++ ": " ++
          toString (match recGet c.ratings m.name with
            | some r => r.score
            | none => 0) ++ "/10"))
  "Council Ratings for $" ++ c.crypto ++ ":\n\n" ++ memberRatings ++
    "\n\nOverall Score: " ++ toFixed1 avgScore ++ "/10\n\n" ++
    generateSentiment avgScore

/-- The three stage-mutation assignments of `progressStage`
(`currentStage.completed = true; currentStage.analysis = ...;
currentStage.score = ...; currentStage.details = ...`) applied to one stage,
with `r` the `Math.random()` draw of its analysis. -/
def completeStage (stage : AnalysisStage) (r : ℚ) : AnalysisStage :=
  { stage with
    completed := true
    analysis := (analyzeStage stage.name r).analysis
    score := (analyzeStage stage.name r).score
    details := (analyzeStage stage.name r).details }

/-- `progressStage(id)` of the source, with `r` the `Math.random()` draw of
the stage analysis.  When `stages[currentStage]` is out of range the council
is marked `complete` and the final aggregate summary is returned; otherwise
the current stage is analyzed, marked completed, and `currentStage` is
incremented. -/
def progressStage (st : CouncilStore) (id : String) (r : ℚ) :
    String × CouncilStore :=
  match recGet st id with
  | none => ("No active council found", st)
  | some c =>
      if c.status = CouncilStatus.active then
        match c.stages[c.currentStage]? with
        | none =>
            let c' := { c with status := CouncilStatus.complete }
            (generateFinalAnalysis c', recSet st id c')
        | some stage =>
            let res := analyzeStage stage.name r
            let stage' := completeStage stage r
            let c' :=
              { c with
                stages := c.stages.set c.currentStage stage'
                currentStage := c.currentStage + 1 }
            ("📊 Stage " ++ toString c'.currentStage ++ "/5: " ++
                stage'.name ++ "\n" ++ res.analysis ++ "\nScore: " ++
                toString res.score ++ "/100\n\nSay 'next' to continue!",
              recSet st id c')
      else ("No active council found", st)

/-- `generateMemberAnalysis(member, council)` of the source: the member's
display line with the score currently stored under their name (0 when no
rating is stored yet). -/
def generateMemberAnalysis (m : CouncilMember) (c : Council) : String :=
  m.name ++ " (" ++ m.expertise ++ "): \"" ++ m.catchphrase ++
    "\"\nRating: " ++
    toString (match recGet c.ratings m.name with
      | some rt => rt.score
      | none => 0) ++ "/100"

/-- `getMemberAnalyses(council)` of the source together with the caller's
`council.memberAnalyses = memberAnalyses` assignment in `startAnalysis`:
for each member in order, the analysis line is rendered from the council as
it stands, then a rating with a 60-100 score is stored under the member's
name; `mr i` is the `Math.random()` draw for the `i`-th member. -/
def getMemberAnalyses (c : Council) (mr : ℕ → ℚ) : Council :=
  let res := (c.members.enum).foldl
    (fun (acc : List (String × String) × Council) p =>
      let analysis := generateMemberAnalysis p.2 acc.2
      let rating : CouncilRating :=
        ⟨p.2.name, memberAnalysisScore (mr p.1), generateMemberComment p.2⟩
      (recSet acc.1 p.2.name analysis,
        { acc.2 with ratings := recSet acc.2.ratings p.2.name rating }))
    ([], c)
  { res.2 with memberAnalyses := res.1 }

/-- `CouncilManager.getActiveCouncils()` of the second source file:
`Array.from(this.councils.values()).filter(c => c.status === 'pending')`. -/
def getActiveCouncils (st : CouncilStore) : List Council :=
  (recValues st).filter (fun c => decide (c.status = CouncilStatus.pending))

/-- A sequence of `progressStage` calls on the same council id, one per
listed `Math.random()` draw (the user saying "next" repeatedly). -/
def progressN (st : CouncilStore) (id : String) : List ℚ → CouncilStore
  | [] => st
  | r :: rs => progressN (progressStage st id r).2 id rs

/-- Position of a status in the forward lifecycle order
`pending < active < complete`. -/
def statusRank : CouncilStatus → ℕ
  | CouncilStatus.pending => 0
  | CouncilStatus.active => 1
  | CouncilStatus.complete => 2

/-- One registry operation of the plugin, as a relation between registry
states.  The `suggest` step carries the freshness of the generated id
(`Math.random().toString(36).substring(7)` drawn for a new council; the
spec's id-generation guarantee is that it does not collide with an
existing id). -/
inductive StoreStep : CouncilStore → CouncilStore → Prop where
  | suggest (st : CouncilStore) (crypto id : String)
      (shuffled : List CouncilMember) (td : Option TokenData)
      (hfresh : recGet st id = none) :
      StoreStep st (suggestCouncil st crypto id shuffled td).2
  | confirm (st : CouncilStore) (id : String) :
      StoreStep st (confirmCouncil st id).2
  | collect (st : CouncilStore) (id : String) (mr : ℕ → ℚ) (rt rf rm : ℚ) :
      StoreStep st (collectRatings st id mr rt rf rm).2
  | progress (st : CouncilStore) (id : String) (r : ℚ) :
      StoreStep st (progressStage st id r).2

/-- A concrete council produced by the factory: `suggestCouncil("BTC")` with
generated id `"abc123"` and the identity shuffle of the roster. -/
def demoCouncil : Council :=
  (suggestCouncil [] "BTC" "abc123" councilMembers none).1

/-- The registry right after creating `demoCouncil`. -/
def freshDemoStore : CouncilStore :=
  (suggestCouncil [] "BTC" "abc123" councilMembers none).2

/-- `demoCouncil` once confirmed. -/
def demoCouncilActive : Council :=
  { demoCouncil with status := CouncilStatus.active }

/-- The registry after `confirmCouncil("abc123")` on `freshDemoStore`. -/
def demoActiveStore : CouncilStore :=
  (confirmCouncil freshDemoStore "abc123").2

theorem recGet_recSet_self {α : Type} (m : List (String × α)) (k : String)
    (v : α) : recGet (recSet m k v) k = some v := by
  induction m with
  | nil => simp [recSet, recGet]
  | cons p t ih =>
      by_cases h : p.1 = k
      · simp [recSet, recGet, h]
      · simp [recSet, recGet, h, ih]

theorem recGet_recSet_ne {α : Type} (m : List (String × α)) (k k' : String)
    (v : α) (h : k' ≠ k) : recGet (recSet m k v) k' = recGet m k' := by
  induction m with
  | nil => simp [recSet, recGet, Ne.symm h]
  | cons p t ih =>
      by_cases hp : p.1 = k
      · simp [recSet, recGet, hp, Ne.symm h]
      · simp [recSet, recGet, hp, ih]

theorem length_recSet_of_isSome {α : Type} (m : List (String × α))
    (k : String) (v : α) (h : (recGet m k).isSome) :
    (recSet m k v).length = m.length := by
  induction m with
  | nil => simp [recGet] at h
  | cons p t ih =>
      by_cases hp : p.1 = k
      · simp [recSet, hp]
      · rw [recGet, if_neg hp] at h
        simp [recSet, hp, ih h]

/-- C8 (amended): for every stage name and draw, the stage analyzer under
full JavaScript lookup semantics behaves as follows.  A name outside the
five declared stage names yields the sentinel (analysis "Analysis
unavailable", score 0, empty details) only when it is also not one of the
`Object.prototype` names whose lookup misbehaves: the four inherited names
whose call is truthy (`constructor`, `toString`, `toLocaleString`,
`valueOf`) produce a truthy non-sentinel value that bypasses the `||`, and
the three throwing names (`__proto__`, `__defineGetter__`,
`__defineSetter__`) raise a TypeError, so the analyzer is not
total-with-sentinel over all stage-name inputs. -/
theorem analyzeStage_prototype_chain (stageName : String) (r : ℚ) :
    (stageName ∉ declaredStageNames → stageName ∉ protoTruthyCallNames →
      stageName ∉ protoThrowingNames →
      analyzeStageJs stageName r =
        StageLookup.result ⟨"Analysis unavailable", 0, StageDetails.empty⟩) ∧
    (stageName ∈ protoTruthyCallNames →
      analyzeStageJs stageName r = StageLookup.inheritedValue) ∧
    (stageName ∈ protoThrowingNames →
      analyzeStageJs stageName r = StageLookup.typeError) := by
  refine ⟨fun h1 h2 h3 => ?_, fun h => ?_, fun h => ?_⟩
  · rw [analyzeStageJs, if_neg h1, if_neg h2, if_neg h3]
  · have h1 : stageName ∉ declaredStageNames := by
      fin_cases h <;> decide
    rw [analyzeStageJs, if_neg h1, if_pos h]
  · have h1 : stageName ∉ declaredStageNames := by
      fin_cases h <;> decide
    have h2 : stageName ∉ protoTruthyCallNames := by
      fin_cases h <;> decide
    rw [analyzeStageJs, if_neg h1, if_neg h2, if_pos h]

theorem analyzeStage_prototype_chain_witness :
    analyzeStageJs "Quantum Vibes" 0 =
      StageLookup.result ⟨"Analysis unavailable", 0, StageDetails.empty⟩ ∧
    analyzeStageJs "hasOwnProperty" 0 =
      StageLookup.result ⟨"Analysis unavailable", 0, StageDetails.empty⟩ ∧
    analyzeStageJs "toString" 0 = StageLookup.inheritedValue ∧
    analyzeStageJs "__proto__" 0 = StageLookup.typeError :=
  ⟨(analyzeStage_prototype_chain "Quantum Vibes" 0).1 (by decide) (by decide)
      (by decide),
    (analyzeStage_prototype_chain "hasOwnProperty" 0).1 (by decide)
      (by decide) (by decide),
    (analyzeStage_prototype_chain "toString" 0).2.1 (by decide),
    (analyzeStage_prototype_chain "__proto__" 0).2.2 (by decide)⟩

/-- C8 counterexample: `"toString"` and `"__proto__"` are stage names
outside the five declared ones, yet the analyzer does not return the
sentinel for them: the inherited `toString` is called and its truthy result
"[object Object]" bypasses the `||`, and on `"__proto__"` the call
`analyses[stage.name]?.()` throws a TypeError, refuting both the
always-sentinel and the never-raises parts of the claim. -/
theorem analyzeStage_prototype_cex :
    "toString" ∉ declaredStageNames ∧
    "__proto__" ∉ declaredStageNames ∧
    analyzeStageJs "toString" 0 = StageLookup.inheritedValue ∧
    analyzeStageJs "toString" 0 ≠
      StageLookup.result ⟨"Analysis unavailable", 0, StageDetails.empty⟩ ∧
    analyzeStageJs "__proto__" 0 = StageLookup.typeError := by
  decide

/-- C7: for every random draw in `[0, 1)`, each stage score lies in its
declared range under the `floor(lower + random * width)` semantics
(On-chain Analysis 60-100, Social Sentiment 50-100, Market Insights 40-100,
Design and Art 70-100, Value Proposition 55-100, upper bound exclusive);
the per-member quick rating lies in 1-10 and the member-analysis rating in
60-100; and each of the three axis draws (`technicalScore`,
`fundamentalScore`, `memePotential`) lies in 0-100. -/
theorem score_ranges (r : ℚ) (h0 : 0 ≤ r) (h1 : r < 1) :
    (60 ≤ (analyzeStage "On-chain Analysis" r).score ∧
      (analyzeStage "On-chain Analysis" r).score < 100) ∧
    (50 ≤ (analyzeStage "Social Sentiment" r).score ∧
      (analyzeStage "Social Sentiment" r).score < 100) ∧
    (40 ≤ (analyzeStage "Market Insights" r).score ∧
      (analyzeStage "Market Insights" r).score < 100) ∧
    (70 ≤ (analyzeStage "Design and Art" r).score ∧
      (analyzeStage "Design and Art" r).score < 100) ∧
    (55 ≤ (analyzeStage "Value Proposition" r).score ∧
      (analyzeStage "Value Proposition" r).score < 100) ∧
    (1 ≤ quickRatingScore r ∧ quickRatingScore r ≤ 10) ∧
    (60 ≤ memberAnalysisScore r ∧ memberAnalysisScore r < 100) ∧
    (0 ≤ axisScore r ∧ axisScore r < 100) := by
  simp only [analyzeStage, quickRatingScore, memberAnalysisScore, axisScore,
    if_true, if_false, String.reduceEq, ite_true, ite_false, reduceIte]
  refine ⟨⟨?_, ?_⟩, ⟨?_, ?_⟩, ⟨?_, ?_⟩, ⟨?_, ?_⟩, ⟨?_, ?_⟩, ⟨?_, ?_⟩,
    ⟨?_, ?_⟩, ⟨?_, ?_⟩⟩
  · exact Int.le_floor.mpr (by push_cast; nlinarith)
  · exact Int.floor_lt.mpr (by push_cast; nlinarith)
  · exact Int.le_floor.mpr (by push_cast; nlinarith)
  · exact Int.floor_lt.mpr (by push_cast; nlinarith)
  · exact Int.le_floor.mpr (by push_cast; nlinarith)
  · exact Int.floor_lt.mpr (by push_cast; nlinarith)
  · exact Int.le_floor.mpr (by push_cast; nlinarith)
  · exact Int.floor_lt.mpr (by push_cast; nlinarith)
  · exact Int.le_floor.mpr (by push_cast; nlinarith)
  · exact Int.floor_lt.mpr (by push_cast; nlinarith)
  · have : (0 : ℤ) ≤ Int.floor (r * 10) :=
      Int.floor_nonneg.mpr (by nlinarith)
    omega
  · have : Int.floor (r * 10) < 10 :=
      Int.floor_lt.mpr (by push_cast; nlinarith)
    omega
  · have : (0 : ℤ) ≤ Int.floor (r * 40) :=
      Int.floor_nonneg.mpr (by nlinarith)
    omega
  · have : Int.floor (r * 40) < 40 :=
      Int.floor_lt.mpr (by push_cast; nlinarith)
    omega
  · exact Int.floor_nonneg.mpr (by nlinarith)
  · exact Int.floor_lt.mpr (by push_cast; nlinarith)

theorem score_ranges_witness :
    (60 ≤ (analyzeStage "On-chain Analysis" (1 / 2)).score ∧
      (analyzeStage "On-chain Analysis" (1 / 2)).score < 100) ∧
    (50 ≤ (analyzeStage "Social Sentiment" (1 / 2)).score ∧
      (analyzeStage "Social Sentiment" (1 / 2)).score < 100) ∧
    (40 ≤ (analyzeStage "Market Insights" (1 / 2)).score ∧
      (analyzeStage "Market Insights" (1 / 2)).score < 100) ∧
    (70 ≤ (analyzeStage "Design and Art" (1 / 2)).score ∧
      (analyzeStage "Design and Art" (1 / 2)).score < 100) ∧
    (55 ≤ (analyzeStage "Value Proposition" (1 / 2)).score ∧
      (analyzeStage "Value Proposition" (1 / 2)).score < 100) ∧
    (1 ≤ quickRatingScore (1 / 2) ∧ quickRatingScore (1 / 2) ≤ 10) ∧
    (60 ≤ memberAnalysisScore (1 / 2) ∧ memberAnalysisScore (1 / 2) < 100) ∧
    (0 ≤ axisScore (1 / 2) ∧ axisScore (1 / 2) < 100) :=
  score_ranges (1 / 2) (by norm_num) (by norm_num)

/-- C10: `getActiveCouncils` returns exactly the councils whose status is
`pending` (never one that is `active` or `complete`), as a sublist of the
registry's values in insertion order, and returns the empty list when no
council is pending. -/
theorem getActiveCouncils_spec (st : CouncilStore) :
    (∀ c, c ∈ getActiveCouncils st ↔
      c ∈ recValues st ∧ c.status = CouncilStatus.pending) ∧
    List.Sublist (getActiveCouncils st) (recValues st) ∧
    (∀ c ∈ getActiveCouncils st,
      c.status ≠ CouncilStatus.active ∧ c.status ≠ CouncilStatus.complete) ∧
    ((∀ c ∈ recValues st, c.status ≠ CouncilStatus.pending) →
      getActiveCouncils st = []) := by
  refine ⟨fun c => ?_, ?_, fun c hc => ?_, fun h => ?_⟩
  · simp [getActiveCouncils, List.mem_filter]
  · exact List.filter_sublist _
  · have hp : c.status = CouncilStatus.pending := by
      have := (List.mem_filter.mp hc).2
      simpa using this
    rw [hp]
    exact ⟨by decide, by decide⟩
  · refine List.filter_eq_nil_iff.mpr fun c hcm => ?_
    simp [h c hcm]

theorem getActiveCouncils_spec_witness :
    getActiveCouncils freshDemoStore = [demoCouncil] ∧
    getActiveCouncils demoActiveStore = [] := by
  decide

/-- C3: `collectRatings` on an unknown id, or on a council whose status is
`pending` or `complete`, returns the string "Council not found or not
active" and leaves the registry (hence every council, with all its ratings,
scores, risk level, analysis and status fields) completely unchanged. -/
theorem collectRatings_not_active_noop (st : CouncilStore) (id : String)
    (mr : ℕ → ℚ) (rt rf rm : ℚ)
    (h : recGet st id = none ∨ ∃ c, recGet st id = some c ∧
      (c.status = CouncilStatus.pending ∨ c.status = CouncilStatus.complete)) :
    (collectRatings st id mr rt rf rm).1 = "Council not found or not active" ∧
    (collectRatings st id mr rt rf rm).2 = st := by
  rcases h with h | ⟨c, hc, hs⟩
  · simp [collectRatings, h]
  · have hne : ¬c.status = CouncilStatus.active := by
      rcases hs with h' | h' <;> simp [h']
    simp [collectRatings, hc, hne]

theorem collectRatings_not_active_noop_witness :
    (collectRatings freshDemoStore "abc123" (fun _ => 0) 0 0 0).1 =
      "Council not found or not active" ∧
    (collectRatings freshDemoStore "abc123" (fun _ => 0) 0 0 0).2 =
      freshDemoStore :=
  collectRatings_not_active_noop freshDemoStore "abc123" (fun _ => 0) 0 0 0
    (Or.inr ⟨demoCouncil, by decide, Or.inl (by decide)⟩)

/-- C4: `confirmCouncil` returns `true` exactly when the council exists with
status `pending`; in that case it stores the same council with status
`active`, and a second confirm on the same id returns `false` and leaves the
registry where the first confirm put it; whenever it returns `false` the
registry is unchanged. -/
theorem confirmCouncil_spec (st : CouncilStore) (id : String) :
    ((confirmCouncil st id).1 = true ↔
      ∃ c, recGet st id = some c ∧ c.status = CouncilStatus.pending) ∧
    (∀ c, recGet st id = some c → c.status = CouncilStatus.pending →
      recGet (confirmCouncil st id).2 id =
        some { c with status := CouncilStatus.active } ∧
      (confirmCouncil (confirmCouncil st id).2 id).1 = false ∧
      (confirmCouncil (confirmCouncil st id).2 id).2 =
        (confirmCouncil st id).2) ∧
    ((confirmCouncil st id).1 = false → (confirmCouncil st id).2 = st) := by
  refine ⟨?_, fun c hc hp => ?_, ?_⟩
  · constructor
    · intro htrue
      rcases hg : recGet st id with _ | c0
      · simp [confirmCouncil, hg] at htrue
      · by_cases hp : c0.status = CouncilStatus.pending
        · exact ⟨c0, rfl, hp⟩
        · simp [confirmCouncil, hg, hp] at htrue
    · rintro ⟨c0, hg, hp⟩
      simp [confirmCouncil, hg, hp]
  · have hset : (confirmCouncil st id).2 =
        recSet st id { c with status := CouncilStatus.active } := by
      simp [confirmCouncil, hc, hp]
    have hget2 : recGet (confirmCouncil st id).2 id =
        some { c with status := CouncilStatus.active } := by
      rw [hset]; exact recGet_recSet_self st id _
    refine ⟨hget2, ?_, ?_⟩ <;>
    · rw [hset]
      simp [confirmCouncil, recGet_recSet_self]
  · intro hfalse
    rcases hg : recGet st id with _ | c0
    · simp [confirmCouncil, hg]
    · by_cases hp : c0.status = CouncilStatus.pending
      · simp [confirmCouncil, hg, hp] at hfalse
      · simp [confirmCouncil, hg, hp]

theorem confirmCouncil_spec_witness :
    (confirmCouncil freshDemoStore "abc123").1 = true ∧
    recGet demoActiveStore "abc123" = some demoCouncilActive ∧
    (confirmCouncil demoActiveStore "abc123").1 = false ∧
    (confirmCouncil demoActiveStore "abc123").2 = demoActiveStore ∧
    (confirmCouncil freshDemoStore "missing").1 = false ∧
    (confirmCouncil freshDemoStore "missing").2 = freshDemoStore := by
  decide

/-- C2: on a rating-collection call on an active council, the stored risk
level is `low` when the average rating is strictly greater than 7, `medium`
when strictly greater than 4, and `high` otherwise, while the stored
narrative is the bullish one when the average is at least 7, the neutral one
when at least 4, and the bearish one otherwise; in particular an average of
exactly 7 yields risk `medium` together with the bullish narrative. -/
theorem collectRatings_classification (st : CouncilStore) (id : String)
    (mr : ℕ → ℚ) (rt rf rm : ℚ) (c : Council)
    (hget : recGet st id = some c)
    (hactive : c.status = CouncilStatus.active) :
    ∃ c', recGet (collectRatings st id mr rt rf rm).2 id = some c' ∧
      (7 < avgRating c mr → c'.riskLevel = RiskLevel.low) ∧
      (4 < avgRating c mr → avgRating c mr ≤ 7 →
        c'.riskLevel = RiskLevel.medium) ∧
      (avgRating c mr ≤ 4 → c'.riskLevel = RiskLevel.high) ∧
      (7 ≤ avgRating c mr → c'.analysis = bullishAnalysis c.crypto) ∧
      (4 ≤ avgRating c mr → avgRating c mr < 7 →
        c'.analysis = neutralAnalysis c.crypto) ∧
      (avgRating c mr < 4 → c'.analysis = bearishAnalysis c.crypto) ∧
      (avgRating c mr = 7 →
        c'.riskLevel = RiskLevel.medium ∧
        c'.analysis = bullishAnalysis c.crypto) := by
  have hstep : (collectRatings st id mr rt rf rm).2 =
      recSet st id
        { c with
          ratings := updatedRatings c mr
          technicalScore := axisScore rt
          fundamentalScore := axisScore rf
          memePotential := axisScore rm
          riskLevel :=
            if avgRating c mr > 7 then RiskLevel.low
            else if avgRating c mr > 4 then RiskLevel.medium
            else RiskLevel.high
          analysis :=
            if avgRating c mr ≥ 7 then bullishAnalysis c.crypto
            else if avgRating c mr ≥ 4 then neutralAnalysis c.crypto
            else bearishAnalysis c.crypto
          status := CouncilStatus.complete } := by
    simp [collectRatings, hget, hactive]
  refine ⟨_, by rw [hstep]; exact recGet_recSet_self st id _,
    ?_, ?_, ?_, ?_, ?_, ?_, ?_⟩ <;> dsimp only
  · intro h
    rw [if_pos h]
  · intro h4 h7
    rw [if_neg (not_lt.mpr h7), if_pos h4]
  · intro h4
    rw [if_neg (not_lt.mpr (le_trans h4 (by norm_num))),
      if_neg (not_lt.mpr h4)]
  · intro h
    rw [if_pos h]
  · intro h4 h7
    rw [if_neg (not_le.mpr h7), if_pos h4]
  · intro h4
    rw [if_neg (not_le.mpr (lt_trans h4 (by norm_num))),
      if_neg (not_le.mpr h4)]
  · intro h7
    constructor
    · rw [if_neg (by rw [h7]; exact lt_irrefl 7), if_pos (by rw [h7]; norm_num)]
    · rw [if_pos h7.ge]

theorem collectRatings_classification_witness :
    avgRating demoCouncilActive (fun _ => (13 : ℚ) / 20) = 7 ∧
    ∃ c', recGet (collectRatings demoActiveStore "abc123"
        (fun _ => (13 : ℚ) / 20) 0 0 0).2 "abc123" = some c' ∧
      c'.riskLevel = RiskLevel.medium ∧
      c'.analysis = bullishAnalysis "BTC" := by
  have havg : avgRating demoCouncilActive (fun _ => (13 : ℚ) / 20) = 7 := by
    have hq : quickRatingScore ((13 : ℚ) / 20) = 7 := by
      rw [quickRatingScore]
      norm_num [Int.floor_eq_iff]
    simp [avgRating, updatedRatings, demoCouncilActive, demoCouncil,
      suggestCouncil, councilMembers, recSet, recValues, recGet,
      List.enum, List.enumFrom, generateMemberComment, hq]
    norm_num
  obtain ⟨c', hc', _, _, _, _, _, _, hbound⟩ :=
    collectRatings_classification demoActiveStore "abc123"
      (fun _ => (13 : ℚ) / 20) 0 0 0 demoCouncilActive (by decide) (by decide)
  obtain ⟨hr, ha⟩ := hbound havg
  exact ⟨havg, c', hc', hr, ha⟩

/-- C9: for every crypto symbol (and every outcome of the random member
shuffle, which reorders the roster), the council built by `suggestCouncil`
has exactly 3 members with pairwise distinct names, all drawn from the
5-member roster; its stages are the five canonical ones in order, none
completed and all with score 0; its status is `pending` with `currentStage`
0; and it is registered in the store, so `getCouncil(id)` returns it. -/
theorem suggestCouncil_spec (st : CouncilStore) (crypto id : String)
    (shuffled : List CouncilMember) (td : Option TokenData)
    (hperm : shuffled.Perm councilMembers) :
    ∃ c, (suggestCouncil st crypto id shuffled td).1 = c ∧
      c.members.length = 3 ∧
      (c.members.map CouncilMember.name).Nodup ∧
      (∀ m ∈ c.members, m ∈ councilMembers) ∧
      c.stages = initialStages ∧
      c.stages.map AnalysisStage.name =
        ["On-chain Analysis", "Social Sentiment", "Market Insights",
          "Design and Art", "Value Proposition"] ∧
      (∀ s ∈ c.stages, s.completed = false ∧ s.score = 0) ∧
      c.status = CouncilStatus.pending ∧
      c.currentStage = 0 ∧
      c.crypto = crypto ∧
      getCouncil (suggestCouncil st crypto id shuffled td).2 id = some c := by
  have hlen : shuffled.length = 5 := hperm.length_eq.trans (by decide)
  refine ⟨(suggestCouncil st crypto id shuffled td).1, rfl,
    ?_, ?_, ?_, rfl,
    show initialStages.map AnalysisStage.name = _ by decide,
    show ∀ s ∈ initialStages, s.completed = false ∧ s.score = 0 by decide,
    rfl, rfl, rfl, ?_⟩
  · simp [suggestCouncil, List.length_take, hlen]
  · have hnames : (shuffled.map CouncilMember.name).Nodup :=
      (hperm.map CouncilMember.name).nodup_iff.mpr (by decide)
    have : (shuffled.take 3).map CouncilMember.name =
        (shuffled.map CouncilMember.name).take 3 := by
      simp [List.map_take]
    rw [suggestCouncil]
    dsimp only
    rw [this]
    exact hnames.sublist (List.take_sublist 3 _)
  · intro m hm
    have hm' : m ∈ shuffled :=
      List.mem_of_mem_take (by simpa [suggestCouncil] using hm)
    exact hperm.mem_iff.mp hm'
  · exact recGet_recSet_self st id _

theorem suggestCouncil_spec_witness :
    ∃ c, (suggestCouncil [] "BTC" "abc123" councilMembers none).1 = c ∧
      c.members.length = 3 ∧
      (c.members.map CouncilMember.name).Nodup ∧
      (∀ m ∈ c.members, m ∈ councilMembers) ∧
      c.stages = initialStages ∧
      c.stages.map AnalysisStage.name =
        ["On-chain Analysis", "Social Sentiment", "Market Insights",
          "Design and Art", "Value Proposition"] ∧
      (∀ s ∈ c.stages, s.completed = false ∧ s.score = 0) ∧
      c.status = CouncilStatus.pending ∧
      c.currentStage = 0 ∧
      c.crypto = "BTC" ∧
      getCouncil (suggestCouncil [] "BTC" "abc123" councilMembers none).2
        "abc123" = some c :=
  suggestCouncil_spec [] "BTC" "abc123" councilMembers none (List.Perm.refl _)

/-- C5 (amended): inserting a freshly created council under an id that is
already present in the store silently overwrites the existing council
(JavaScript `Map.set` semantics): afterwards `getCouncil(id)` returns the
new council, the store has not grown, and no `DuplicateId` failure exists
anywhere on this path (`suggestCouncil` is total and always returns the new
council). -/
theorem suggestCouncil_duplicate_id_overwrites (st : CouncilStore)
    (crypto id : String) (shuffled : List CouncilMember)
    (td : Option TokenData) (c0 : Council)
    (hdup : recGet st id = some c0) :
    getCouncil (suggestCouncil st crypto id shuffled td).2 id =
      some (suggestCouncil st crypto id shuffled td).1 ∧
    List.length ((suggestCouncil st crypto id shuffled td).2) =
      List.length st := by
  constructor
  · exact recGet_recSet_self st id _
  · exact length_recSet_of_isSome st id _ (by rw [hdup]; rfl)

theorem suggestCouncil_duplicate_id_overwrites_witness :
    getCouncil (suggestCouncil freshDemoStore "ETH" "abc123" councilMembers
        none).2 "abc123" =
      some (suggestCouncil freshDemoStore "ETH" "abc123" councilMembers
        none).1 ∧
    List.length ((suggestCouncil freshDemoStore "ETH" "abc123" councilMembers
        none).2) = List.length freshDemoStore :=
  suggestCouncil_duplicate_id_overwrites freshDemoStore "ETH" "abc123"
    councilMembers none demoCouncil (by decide)

/-- C5 counterexample: with the council `demoCouncil` (crypto "BTC")
registered under id "abc123", calling the factory again with the same id
does not fail with any `DuplicateId` error: it replaces the stored council,
so the registry holds exactly one entry, `getCouncil` now returns the new
"ETH" council, and the original council is no longer reachable. -/
theorem suggestCouncil_duplicate_id_cex :
    recGet freshDemoStore "abc123" = some demoCouncil ∧
    (suggestCouncil freshDemoStore "ETH" "abc123" councilMembers none).2 =
      [("abc123",
        (suggestCouncil freshDemoStore "ETH" "abc123" councilMembers
          none).1)] ∧
    (suggestCouncil freshDemoStore "ETH" "abc123" councilMembers
      none).1.crypto = "ETH" ∧
    getCouncil (suggestCouncil freshDemoStore "ETH" "abc123" councilMembers
      none).2 "abc123" ≠ some demoCouncil := by
  decide

theorem progressStage_snd_step (st : CouncilStore) (id : String) (r : ℚ)
    (c : Council) (stage : AnalysisStage)
    (hget : recGet st id = some c)
    (hactive : c.status = CouncilStatus.active)
    (hstage : c.stages[c.currentStage]? = some stage) :
    (progressStage st id r).2 = recSet st id
      { c with
        stages := c.stages.set c.currentStage (completeStage stage r)
        currentStage := c.currentStage + 1 } := by
  simp [progressStage, hget, hactive, hstage]

theorem progressStage_snd_done (st : CouncilStore) (id : String) (r : ℚ)
    (c : Council)
    (hget : recGet st id = some c)
    (hactive : c.status = CouncilStatus.active)
    (hstage : c.stages[c.currentStage]? = none) :
    (progressStage st id r).2 =
      recSet st id { c with status := CouncilStatus.complete } := by
  simp [progressStage, hget, hactive, hstage]

/-- C1 (amended): on a council that is active with `currentStage` 0 and
five stages, five successful `progressStage` calls mark all five stages
`completed` and bring `currentStage` to 5, but the status is still
`active`, not `complete`; it is the next (sixth) call that finds
`stages[currentStage]` undefined and flips the status to `complete`. -/
theorem progress_five_then_sixth_completes (st : CouncilStore) (id : String)
    (c : Council) (s1 s2 s3 s4 s5 : AnalysisStage) (r1 r2 r3 r4 r5 r6 : ℚ)
    (hget : recGet st id = some c)
    (hactive : c.status = CouncilStatus.active)
    (hcur : c.currentStage = 0)
    (hstages : c.stages = [s1, s2, s3, s4, s5]) :
    ∃ c', recGet (progressN st id [r1, r2, r3, r4, r5]) id = some c' ∧
      c'.currentStage = 5 ∧
      (∀ s ∈ c'.stages, s.completed = true) ∧
      c'.status = CouncilStatus.active ∧
      ∃ c'', recGet (progressStage (progressN st id [r1, r2, r3, r4, r5])
          id r6).2 id = some c'' ∧
        c''.status = CouncilStatus.complete := by
  have h1 : (progressStage st id r1).2 = recSet st id
      { c with
        stages := [completeStage s1 r1, s2, s3, s4, s5]
        currentStage := 1 } := by
    rw [progressStage_snd_step st id r1 c s1 hget hactive
      (by rw [hstages, hcur]; rfl), hstages, hcur]
    rfl
  have h2 : (progressStage (recSet st id
      { c with
        stages := [completeStage s1 r1, s2, s3, s4, s5]
        currentStage := 1 }) id r2).2 = recSet (recSet st id
      { c with
        stages := [completeStage s1 r1, s2, s3, s4, s5]
        currentStage := 1 }) id
      { c with
        stages := [completeStage s1 r1, completeStage s2 r2, s3, s4, s5]
        currentStage := 2 } :=
    progressStage_snd_step _ id r2 _ s2 (recGet_recSet_self st id _)
      hactive rfl
  have h3 : (progressStage (recSet (recSet st id
      { c with
        stages := [completeStage s1 r1, s2, s3, s4, s5]
        currentStage := 1 }) id
      { c with
        stages := [completeStage s1 r1, completeStage s2 r2, s3, s4, s5]
        currentStage := 2 }) id r3).2 = recSet (recSet (recSet st id
      { c with
        stages := [completeStage s1 r1, s2, s3, s4, s5]
        currentStage := 1 }) id
      { c with
        stages := [completeStage s1 r1, completeStage s2 r2, s3, s4, s5]
        currentStage := 2 }) id
      { c with
        stages := [completeStage s1 r1, completeStage s2 r2,
          completeStage s3 r3, s4, s5]
        currentStage := 3 } :=
    progressStage_snd_step _ id r3 _ s3 (recGet_recSet_self _ id _)
      hactive rfl
  have h4 : (progressStage (recSet (recSet (recSet st id
      { c with
        stages := [completeStage s1 r1, s2, s3, s4, s5]
        currentStage := 1 }) id
      { c with
        stages := [completeStage s1 r1, completeStage s2 r2, s3, s4, s5]
        currentStage := 2 }) id
      { c with
        stages := [completeStage s1 r1, completeStage s2 r2,
          completeStage s3 r3, s4, s5]
        currentStage := 3 }) id r4).2 = recSet (recSet (recSet (recSet st id
      { c with
        stages := [completeStage s1 r1, s2, s3, s4, s5]
        currentStage := 1 }) id
      { c with
        stages := [completeStage s1 r1, completeStage s2 r2, s3, s4, s5]
        currentStage := 2 }) id
      { c with
        stages := [completeStage s1 r1, completeStage s2 r2,
          completeStage s3 r3, s4, s5]
        currentStage := 3 }) id
      { c with
        stages := [completeStage s1 r1, completeStage s2 r2,
          completeStage s3 r3, completeStage s4 r4, s5]
        currentStage := 4 } :=
    progressStage_snd_step _ id r4 _ s4 (recGet_recSet_self _ id _)
      hactive rfl
  have h5 : (progressStage (recSet (recSet (recSet (recSet st id
      { c with
        stages := [completeStage s1 r1, s2, s3, s4, s5]
        currentStage := 1 }) id
      { c with
        stages := [completeStage s1 r1, completeStage s2 r2, s3, s4, s5]
        currentStage := 2 }) id
      { c with
        stages := [completeStage s1 r1, completeStage s2 r2,
          completeStage s3 r3, s4, s5]
        currentStage := 3 }) id
      { c with
        stages := [completeStage s1 r1, completeStage s2 r2,
          completeStage s3 r3, completeStage s4 r4, s5]
        currentStage := 4 }) id r5).2 =
      recSet (recSet (recSet (recSet (recSet st id
      { c with
        stages := [completeStage s1 r1, s2, s3, s4, s5]
        currentStage := 1 }) id
      { c with
        stages := [completeStage s1 r1, completeStage s2 r2, s3, s4, s5]
        currentStage := 2 }) id
      { c with
        stages := [completeStage s1 r1, completeStage s2 r2,
          completeStage s3 r3, s4, s5]
        currentStage := 3 }) id
      { c with
        stages := [completeStage s1 r1, completeStage s2 r2,
          completeStage s3 r3, completeStage s4 r4, s5]
        currentStage := 4 }) id
      { c with
        stages := [completeStage s1 r1, completeStage s2 r2,
          completeStage s3 r3, completeStage s4 r4, completeStage s5 r5]
        currentStage := 5 } :=
    progressStage_snd_step _ id r5 _ s5 (recGet_recSet_self _ id _)
      hactive rfl
  have hN : progressN st id [r1, r2, r3, r4, r5] =
      recSet (recSet (recSet (recSet (recSet st id
      { c with
        stages := [completeStage s1 r1, s2, s3, s4, s5]
        currentStage := 1 }) id
      { c with
        stages := [completeStage s1 r1, completeStage s2 r2, s3, s4, s5]
        currentStage := 2 }) id
      { c with
        stages := [completeStage s1 r1, completeStage s2 r2,
          completeStage s3 r3, s4, s5]
        currentStage := 3 }) id
      { c with
        stages := [completeStage s1 r1, completeStage s2 r2,
          completeStage s3 r3, completeStage s4 r4, s5]
        currentStage := 4 }) id
      { c with
        stages := [completeStage s1 r1, completeStage s2 r2,
          completeStage s3 r3, completeStage s4 r4, completeStage s5 r5]
        currentStage := 5 } := by
    simp only [progressN, h1, h2, h3, h4, h5]
  refine ⟨{ c with
      stages := [completeStage s1 r1, completeStage s2 r2, completeStage s3 r3,
        completeStage s4 r4, completeStage s5 r5]
      currentStage := 5 },
    by rw [hN]; exact recGet_recSet_self _ id _, rfl, ?_, hactive, ?_⟩
  · intro s hs
    fin_cases hs <;> rfl
  · have h6 : (progressStage (progressN st id [r1, r2, r3, r4, r5])
        id r6).2 = recSet (progressN st id [r1, r2, r3, r4, r5]) id
        { c with
          stages := [completeStage s1 r1, completeStage s2 r2,
            completeStage s3 r3, completeStage s4 r4, completeStage s5 r5]
          currentStage := 5
          status := CouncilStatus.complete } := by
      rw [hN]
      exact progressStage_snd_done _ id r6 _ (recGet_recSet_self _ id _)
        hactive rfl
    refine ⟨{ c with
        stages := [completeStage s1 r1, completeStage s2 r2,
          completeStage s3 r3, completeStage s4 r4, completeStage s5 r5]
        currentStage := 5
        status := CouncilStatus.complete },
      by rw [h6]; exact recGet_recSet_self _ id _, rfl⟩

theorem progress_five_then_sixth_completes_witness :
    ∃ c', recGet (progressN demoActiveStore "abc123" [0, 0, 0, 0, 0])
        "abc123" = some c' ∧
      c'.currentStage = 5 ∧
      (∀ s ∈ c'.stages, s.completed = true) ∧
      c'.status = CouncilStatus.active ∧
      ∃ c'', recGet (progressStage
          (progressN demoActiveStore "abc123" [0, 0, 0, 0, 0])
          "abc123" 0).2 "abc123" = some c'' ∧
        c''.status = CouncilStatus.complete :=
  progress_five_then_sixth_completes demoActiveStore "abc123"
    demoCouncilActive
    ⟨"On-chain Analysis", false, 0, "", StageDetails.empty⟩
    ⟨"Social Sentiment", false, 0, "", StageDetails.empty⟩
    ⟨"Market Insights", false, 0, "", StageDetails.empty⟩
    ⟨"Design and Art", false, 0, "", StageDetails.empty⟩
    ⟨"Value Proposition", false, 0, "", StageDetails.empty⟩
    0 0 0 0 0 0 (by decide) (by decide) (by decide) (by decide)

/-- C1 counterexample: on the fresh confirmed council for "BTC", five
successful `progressStage` calls (each one advances `currentStage`, ending
at 5, and completes every stage) leave the status at `active`, not
`complete`, refuting the claim that after exactly 5 successful calls the
status equals `complete`. -/
theorem progress_five_not_complete_cex :
    (recGet (progressN demoActiveStore "abc123" [0, 0, 0, 0, 0])
      "abc123").map Council.currentStage = some 5 ∧
    (recGet (progressN demoActiveStore "abc123" [0, 0, 0, 0, 0])
      "abc123").map (fun c => c.stages.all (fun s => s.completed)) =
      some true ∧
    (recGet (progressN demoActiveStore "abc123" [0, 0, 0, 0, 0])
      "abc123").map Council.status = some CouncilStatus.active ∧
    (recGet (progressN demoActiveStore "abc123" [0, 0, 0, 0, 0])
      "abc123").map Council.status ≠ some CouncilStatus.complete := by
  decide

theorem recGet_confirm_ne (st : CouncilStore) (id0 id : String)
    (h : id ≠ id0) : recGet (confirmCouncil st id0).2 id = recGet st id := by
  rcases hg : recGet st id0 with _ | c0
  · simp [confirmCouncil, hg]
  · by_cases hp : c0.status = CouncilStatus.pending
    · simp [confirmCouncil, hg, hp, recGet_recSet_ne st id0 id _ h]
    · simp [confirmCouncil, hg, hp]

theorem recGet_collect_ne (st : CouncilStore) (id0 id : String)
    (mr : ℕ → ℚ) (rt rf rm : ℚ) (h : id ≠ id0) :
    recGet (collectRatings st id0 mr rt rf rm).2 id = recGet st id := by
  rcases hg : recGet st id0 with _ | c0
  · simp [collectRatings, hg]
  · by_cases ha : c0.status = CouncilStatus.active
    · simp [collectRatings, hg, ha, recGet_recSet_ne st id0 id _ h]
    · simp [collectRatings, hg, ha]

theorem recGet_progress_ne (st : CouncilStore) (id0 id : String) (r : ℚ)
    (h : id ≠ id0) : recGet (progressStage st id0 r).2 id = recGet st id := by
  rcases hg : recGet st id0 with _ | c0
  · simp [progressStage, hg]
  · by_cases ha : c0.status = CouncilStatus.active
    · rcases hs : c0.stages[c0.currentStage]? with _ | stage
      · rw [progressStage_snd_done st id0 r c0 hg ha hs,
          recGet_recSet_ne st id0 id _ h]
      · rw [progressStage_snd_step st id0 r c0 stage hg ha hs,
          recGet_recSet_ne st id0 id _ h]
    · simp [progressStage, hg, ha]

theorem statusRank_le_two (s : CouncilStatus) : statusRank s ≤ 2 := by
  cases s <;> decide

theorem StoreStep.status_mono {st st' : CouncilStore}
    (hstep : StoreStep st st') (id : String) (c : Council)
    (hc : recGet st id = some c) :
    ∃ c', recGet st' id = some c' ∧
      statusRank c.status ≤ statusRank c'.status := by
  cases hstep with
  | suggest crypto nid shuffled td hfresh =>
      have hne : id ≠ nid := by
        intro he
        rw [he, hfresh] at hc
        cases hc
      refine ⟨c, ?_, le_rfl⟩
      have hsnd : (suggestCouncil st crypto nid shuffled td).2 =
          recSet st nid (suggestCouncil st crypto nid shuffled td).1 := rfl
      rw [hsnd, recGet_recSet_ne st nid id _ hne]
      exact hc
  | confirm id0 =>
      by_cases he : id = id0
      · subst he
        rcases hg : recGet st id with _ | c0
        · rw [hg] at hc
          cases hc
        · rw [hg] at hc
          injection hc with hcc
          subst hcc
          by_cases hp : c0.status = CouncilStatus.pending
          · have hsnd : (confirmCouncil st id).2 =
                recSet st id { c0 with status := CouncilStatus.active } := by
              simp [confirmCouncil, hg, hp]
            refine ⟨{ c0 with status := CouncilStatus.active },
              by rw [hsnd]; exact recGet_recSet_self st id _, ?_⟩
            rw [hp]
            exact Nat.zero_le _
          · have hsnd : (confirmCouncil st id).2 = st := by
              simp [confirmCouncil, hg, hp]
            exact ⟨c0, by rw [hsnd]; exact hg, le_rfl⟩
      · refine ⟨c, ?_, le_rfl⟩
        rw [recGet_confirm_ne st id0 id he]
        exact hc
  | collect id0 mr rt rf rm =>
      by_cases he : id = id0
      · subst he
        rcases hg : recGet st id with _ | c0
        · rw [hg] at hc
          cases hc
        · rw [hg] at hc
          injection hc with hcc
          subst hcc
          by_cases ha : c0.status = CouncilStatus.active
          · have hsnd : (collectRatings st id mr rt rf rm).2 =
                recSet st id
                  { c0 with
                    ratings := updatedRatings c0 mr
                    technicalScore := axisScore rt
                    fundamentalScore := axisScore rf
                    memePotential := axisScore rm
                    riskLevel :=
                      if avgRating c0 mr > 7 then RiskLevel.low
                      else if avgRating c0 mr > 4 then RiskLevel.medium
                      else RiskLevel.high
                    analysis :=
                      if avgRating c0 mr ≥ 7 then bullishAnalysis c0.crypto
                      else if avgRating c0 mr ≥ 4 then
                        neutralAnalysis c0.crypto
                      else bearishAnalysis c0.crypto
                    status := CouncilStatus.complete } := by
              simp [collectRatings, hg, ha]
            refine ⟨_, by rw [hsnd]; exact recGet_recSet_self st id _, ?_⟩
            exact statusRank_le_two c0.status
          · have hsnd : (collectRatings st id mr rt rf rm).2 = st := by
              simp [collectRatings, hg, ha]
            exact ⟨c0, by rw [hsnd]; exact hg, le_rfl⟩
      · refine ⟨c, ?_, le_rfl⟩
        rw [recGet_collect_ne st id0 id mr rt rf rm he]
        exact hc
  | progress id0 r =>
      by_cases he : id = id0
      · subst he
        rcases hg : recGet st id with _ | c0
        · rw [hg] at hc
          cases hc
        · rw [hg] at hc
          injection hc with hcc
          subst hcc
          by_cases ha : c0.status = CouncilStatus.active
          · rcases hs : c0.stages[c0.currentStage]? with _ | stage
            · refine ⟨{ c0 with status := CouncilStatus.complete },
                by rw [progressStage_snd_done st id r c0 hg ha hs]
                   exact recGet_recSet_self st id _, ?_⟩
              exact statusRank_le_two c0.status
            · refine ⟨{ c0 with
                  stages := c0.stages.set c0.currentStage
                    (completeStage stage r)
                  currentStage := c0.currentStage + 1 },
                by rw [progressStage_snd_step st id r c0 stage hg ha hs]
                   exact recGet_recSet_self st id _, le_rfl⟩
          · have hsnd : (progressStage st id r).2 = st := by
              simp [progressStage, hg, ha]
            exact ⟨c0, by rw [hsnd]; exact hg, le_rfl⟩
      · refine ⟨c, ?_, le_rfl⟩
        rw [recGet_progress_ne st id0 id r he]
        exact hc

/-- C6: over any sequence of registry operations (suggestCouncil with a
fresh id, confirmCouncil, collectRatings, progressStage), the status of the
council stored under any given id only ever moves forward in the order
pending < active < complete: no operation moves a status backward. -/
theorem council_status_monotone (st st' : CouncilStore)
    (hsteps : Relation.ReflTransGen StoreStep st st') (id : String)
    (c c' : Council) (hc : recGet st id = some c)
    (hc' : recGet st' id = some c') :
    statusRank c.status ≤ statusRank c'.status := by
  revert c
  induction hsteps using Relation.ReflTransGen.head_induction_on with
  | refl =>
      intro c hc
      rw [hc] at hc'
      injection hc' with h
      rw [h]
  | head hstep _ ih =>
      intro c hc
      obtain ⟨cm, hcm, hle⟩ := hstep.status_mono id c hc
      exact le_trans hle (ih cm hcm)

theorem council_status_monotone_witness :
    statusRank demoCouncil.status ≤ statusRank demoCouncilActive.status :=
  council_status_monotone freshDemoStore demoActiveStore
    (Relation.ReflTransGen.single (StoreStep.confirm freshDemoStore "abc123"))
    "abc123" demoCouncil demoCouncilActive (by decide) (by decide)

end SaturdayAI
